import Mathlib

/-!
Verification development for the tree-walk interpreter repository.

The repository contains two parallel development lineages:

* the `Interp` namespace embeds `src/lexer.rs`, `src/parser/expression.rs`,
  `src/parser/statement.rs`, `src/interpreter.rs` and
  `src/interpreter/environment.rs`;
* the `Front` namespace embeds `src/scanner.rs`, `src/token.rs`,
  `src/expression.rs`, `src/statement.rs` and `src/parser.rs`
  (the pipeline wired by `src/main.rs`).

Modelling conventions: Rust `f64` is modelled by `ℚ` (no claim below depends
on IEEE-754 rounding, infinities or NaN); Rust `usize`/`u64` by `Nat`;
`Result`/fallible code by `Except`/`Option`; a Rust `panic!`/`unwrap`
failure by a distinguished `none`/`panicked` outcome.  The
`Rc<RefCell<Environment>>` chain of the interpreter is modelled by an arena
of frames addressed by index, with the evaluator holding the index of the
current frame; this preserves the sharing semantics of `Rc` aliasing.
-/

/-- Decidable equality for `Except`, used to compute with scan and runtime
results. -/
instance {e a : Type} [DecidableEq e] [DecidableEq a] : DecidableEq (Except e a) := fun x y =>
  match x, y with
  | .ok v, .ok w => decidable_of_iff (v = w) (by simp)
  | .error v, .error w => decidable_of_iff (v = w) (by simp)
  | .ok _, .error _ => isFalse (fun h => Except.noConfusion h)
  | .error _, .ok _ => isFalse (fun h => Except.noConfusion h)

namespace Interp

/-- Lexeme kinds, from `src/lexer.rs` (`enum LexemeKind`). -/
inductive LexemeKind where
  | LeftParen | RightParen | LeftBrace | RightBrace
  | Comma | Dot | Minus | Plus | Semicolon | Slash | Star | Whitespace
  | Bang | BangEqual | Equal | EqualEqual
  | Greater | GreaterEqual | Less | LessEqual
  | IDENTIFIER (s : String)
  | STRING (s : String)
  | NUMBER (n : ℚ)
  | AND | CLASS | ELSE | FALSE | FUN | FOR | IF | NIL | OR
  | PRINT | RETURN | SUPER | THIS | TRUE | VAR | WHILE
  | UNEXPECTED (s : String)
  | EOF
  deriving DecidableEq, Repr

/-- Tokens of `src/lexer.rs` (`struct Token { line, lexeme }`). -/
structure LToken where
  line : Nat
  lexeme : LexemeKind
  deriving DecidableEq, Repr

/-- Scanner state of `src/lexer.rs` (`struct Scanner { cursor, chars, line }`). -/
structure BScan where
  chars : List Char
  cursor : Nat
  line : Nat
  deriving DecidableEq, Repr

/-- `fn is_number(c: char) -> bool` from `src/lexer.rs`. -/
def isNumberChar (c : Char) : Bool :=
  '0' ≤ c && c ≤ '9'

/-- `fn is_valid_ident(c: char) -> bool` from `src/lexer.rs`
(membership in the regex class `[a-zA-Z_]`). -/
def isValidIdentChar (c : Char) : Bool :=
  ('a' ≤ c && c ≤ 'z') || ('A' ≤ c && c ≤ 'Z') || c = '_'

/-- Value of a digit character. -/
def digitVal (c : Char) : Nat := c.toNat - '0'.toNat

/-- Natural number denoted by a list of digit characters (most significant first). -/
def digitsToNat (l : List Char) : Nat :=
  l.foldl (fun acc c => acc * 10 + digitVal c) 0

/-- Rational denoted by an integer digit part and a fractional digit part. -/
def ratOfParts (ip fp : List Char) : ℚ :=
  (digitsToNat ip : ℚ) + (digitsToNat fp : ℚ) / (10 : ℚ) ^ fp.length

/-- Model of Rust `str::parse::<f64>()` restricted to strings made of digits
and dots, as fed to it by `Scanner::number_boundary`: the parse succeeds
iff the buffer holds at least one digit and at most one dot (so `"1."`
and `"1.2"` parse, while `"1.2.3"`, `"1..2"` and `"."` make the
`.unwrap()` panic).  The numeric value is modelled exactly in `ℚ`. -/
def rustParseF64 (s : List Char) : Option ℚ :=
  if s.any (fun c => isNumberChar c) && s.countP (fun c => c = '.') ≤ 1 then
    some (ratOfParts (s.takeWhile (fun c => c ≠ '.'))
      ((s.dropWhile (fun c => c ≠ '.')).drop 1))
  else
    none

/-- `Scanner::number_boundary` from `src/lexer.rs`: collect digits and dots
from the cursor, then `buffer.parse().unwrap()`.  `none` models the panic
of the `unwrap` when the buffer is not a valid `f64` literal. -/
def numberBoundary (st : BScan) : Option (ℚ × BScan) :=
  let buffer := (st.chars.drop st.cursor).takeWhile
    (fun c => isNumberChar c || c = '.')
  match rustParseF64 buffer with
  | some q => some (q, { st with cursor := st.cursor + buffer.length })
  | none => none

/-- Keyword table of `Scanner::identifier_boundary` from `src/lexer.rs`. -/
def keywordOf (s : String) : LexemeKind :=
  match s with
  | "and" => .AND
  | "class" => .CLASS
  | "else" => .ELSE
  | "false" => .FALSE
  | "for" => .FOR
  | "fun" => .FUN
  | "if" => .IF
  | "nil" => .NIL
  | "or" => .OR
  | "print" => .PRINT
  | "return" => .RETURN
  | "super" => .SUPER
  | "this" => .THIS
  | "true" => .TRUE
  | "var" => .VAR
  | "while" => .WHILE
  | _ => .IDENTIFIER s

/-- `Scanner::identifier_boundary` from `src/lexer.rs`. -/
def identifierBoundary (st : BScan) : LexemeKind × BScan :=
  let buffer := (st.chars.drop st.cursor).takeWhile
    (fun c => isNumberChar c || isValidIdentChar c)
  (keywordOf (String.mk buffer), { st with cursor := st.cursor + buffer.length })

/-- The collection loop of `Scanner::word_boundary` from `src/lexer.rs`:
while `peek_next` is some, push the current char unless it is `"`. -/
def wordLoop (chars : List Char) (cursor : Nat) (buf : List Char) :
    List Char × Nat :=
  if h : cursor + 1 < chars.length then
    let c := chars.get ⟨cursor, by omega⟩
    if c = '"' then (buf, cursor)
    else wordLoop chars (cursor + 1) (buf ++ [c])
  else
    (buf, cursor)
termination_by chars.length - cursor

/-- `Scanner::word_boundary` from `src/lexer.rs`: skip the opening quote,
then run the collection loop. -/
def wordBoundary (st : BScan) : String × BScan :=
  let (buf, cursor2) := wordLoop st.chars (st.cursor + 1) []
  (String.mk buf, { st with cursor := cursor2 })

/-- The comment-skipping loop in the `/` arm of `Scanner::next` from
`src/lexer.rs`: starting at the second `/`, advance the cursor while the
scanner is not finished and `peek_next` is not a newline. -/
def commentLoop (st : BScan) : BScan :=
  if st.chars.length ≤ st.cursor then st
  else if st.chars.get? (st.cursor + 1) = some '\n' then st
  else commentLoop { st with cursor := st.cursor + 1 }
termination_by st.chars.length - st.cursor

/-- One step of the `src/lexer.rs` scanner: `finished` models the iterator
returning `None`, `panicked` models a Rust panic (from
`number_boundary`), `outOfFuel` is an artifact of the fuel needed for the
recursive `self.next()` call in the comment arm (a fuel of 2 always
suffices for real inputs). -/
inductive LexStep where
  | finished
  | panicked
  | outOfFuel
  | tok (t : LToken) (st : BScan)
  deriving DecidableEq, Repr

/-- `<Scanner as Iterator>::next` from `src/lexer.rs`.  Faithful to the
source, including: the early returns of the number/identifier paths, the
`self.cursor += 1` applied after the `match` (also after the recursive
`self.next()` of the comment arm), and the dead `EOF` arm guarded by
`is_finished` (unreachable because the current character exists). -/
def lexNext : Nat → BScan → LexStep
  | 0, _ => .outOfFuel
  | Nat.succ fuel, st =>
    if st.chars.length ≤ st.cursor then .finished
    else
      match st.chars.get? st.cursor with
      | none => .finished
      | some c =>
        if isNumberChar c then
          match numberBoundary st with
          | none => .panicked
          | some (q, st1) => .tok ⟨st.line, .NUMBER q⟩ st1
        else if isValidIdentChar c then
          let (lex, st1) := identifierBoundary st
          .tok ⟨st.line, lex⟩ st1
        else
          let bump : BScan → BScan := fun s => { s with cursor := s.cursor + 1 }
          match c with
          | ')' => .tok ⟨st.line, .RightParen⟩ (bump st)
          | '(' => .tok ⟨st.line, .LeftParen⟩ (bump st)
          | '{' => .tok ⟨st.line, .LeftBrace⟩ (bump st)
          | '}' => .tok ⟨st.line, .RightBrace⟩ (bump st)
          | ',' => .tok ⟨st.line, .Comma⟩ (bump st)
          | '.' => .tok ⟨st.line, .Dot⟩ (bump st)
          | '-' => .tok ⟨st.line, .Minus⟩ (bump st)
          | '+' => .tok ⟨st.line, .Plus⟩ (bump st)
          | ';' => .tok ⟨st.line, .Semicolon⟩ (bump st)
          | '*' => .tok ⟨st.line, .Star⟩ (bump st)
          | '!' =>
            if st.chars.get? (st.cursor + 1) = some '=' then
              .tok ⟨st.line, .BangEqual⟩ { st with cursor := st.cursor + 2 }
            else .tok ⟨st.line, .Bang⟩ (bump st)
          | '=' =>
            if st.chars.get? (st.cursor + 1) = some '=' then
              .tok ⟨st.line, .EqualEqual⟩ { st with cursor := st.cursor + 2 }
            else .tok ⟨st.line, .Equal⟩ (bump st)
          | '<' =>
            if st.chars.get? (st.cursor + 1) = some '=' then
              .tok ⟨st.line, .LessEqual⟩ { st with cursor := st.cursor + 2 }
            else .tok ⟨st.line, .Less⟩ (bump st)
          | '>' =>
            if st.chars.get? (st.cursor + 1) = some '=' then
              .tok ⟨st.line, .GreaterEqual⟩ { st with cursor := st.cursor + 2 }
            else .tok ⟨st.line, .Greater⟩ (bump st)
          | '/' =>
            if st.chars.get? (st.cursor + 1) = some '/' then
              let st1 := commentLoop { st with cursor := st.cursor + 1 }
              match lexNext fuel st1 with
              | .tok t st2 => .tok t (bump st2)
              | r => r
            else .tok ⟨st.line, .Slash⟩ (bump st)
          | '"' =>
            let (word, st1) := wordBoundary st
            .tok ⟨st.line, .STRING word⟩ (bump st1)
          | c2 =>
            if c2.isWhitespace then
              let line2 := if c2 = '\n' then st.line + 1 else st.line
              .tok ⟨line2, .Whitespace⟩ { st with cursor := st.cursor + 1, line := line2 }
            else if st.chars.length ≤ st.cursor then
              .tok ⟨st.line, .EOF⟩ (bump st)
            else
              .tok ⟨st.line, .UNEXPECTED (String.mk [c2])⟩ (bump st)

/-- Collect the whole token stream of the `src/lexer.rs` scanner
(`Scanner::collect()`); `none` if a panic (or fuel exhaustion) occurs. -/
def lexCollect : Nat → BScan → Option (List LToken)
  | 0, _ => none
  | Nat.succ fuel, st =>
    match lexNext (Nat.succ fuel) st with
    | .finished => some []
    | .panicked => none
    | .outOfFuel => none
    | .tok t st1 => (lexCollect fuel st1).map (fun l => t :: l)

/-- Initial scanner state for a source string (`Scanner::new`). -/
def lexInit (chars : List Char) : BScan := ⟨chars, 0, 0⟩

/-- Runtime values, from `src/parser/expression.rs` (`enum Value`). -/
inductive Value where
  | BOOLEAN (b : Bool)
  | STRING (s : String)
  | NUMBER (n : ℚ)
  | Null
  deriving DecidableEq, Repr

/-- Expressions, from `src/parser/expression.rs` (`enum Expr`). -/
inductive Expr where
  | Assign (name : String) (expr : Expr)
  | Binary (left : Expr) (operator : LexemeKind) (right : Expr)
  | Literal (v : Value)
  | Logical (left : Expr) (operator : LexemeKind) (right : Expr)
  | Variable (ident : String)
  | Unary (operator : LexemeKind) (right : Expr)
  | Grouping (e : Expr)
  | Error (line : Nat) (message : String)
  deriving DecidableEq, Repr

/-- Statements, from `src/parser/statement.rs` (`enum Stmt`). -/
inductive Stmt where
  | Block (stmts : List Stmt)
  | If (condition : Expr) (then_branch : Stmt) (else_branch : Option Stmt)
  | While (condition : Expr) (body : Stmt)
  | VariableDef (ident : String) (expr : Option Expr)
  | Print (expr : Option Expr)
  | Expr (expr : Expr)
  | Error (line : Nat) (message : String)

/-- `struct RuntimeError { line, message }` from `src/interpreter.rs`. -/
structure RuntimeError where
  line : Nat
  message : String
  deriving DecidableEq, Repr

/-- `InterpreterResult = Result<Value, RuntimeError>`. -/
abbrev IResult := Except RuntimeError Value

/-- One scope frame of `src/interpreter/environment.rs`
(`struct Environment { variables, enclosing }`); `enclosing` is an index
into the arena of frames that models the `Rc<RefCell<_>>` chain. -/
structure Frame where
  vars : List (String × Value)   -- the `variables` HashMap of the source
  enclosing : Option Nat
  deriving DecidableEq, Repr

/-- Interpreter state: the frame arena (modelling the shared
`Rc<RefCell<Environment>>` heap), the index of the current environment of
`struct Interpreter`, and the lines written to the print sink by
`visit_print`. -/
structure IState where
  frames : List Frame
  current : Nat
  output : List String
  deriving DecidableEq, Repr

/-- `HashMap::insert`: bind `name` to `val`, overwriting an existing entry
(keys stay unique within a frame). -/
def insertVar : List (String × Value) → String → Value → List (String × Value)
  | [], name, val => [(name, val)]
  | (k, w) :: rest, name, val =>
    if k = name then (name, val) :: rest else (k, w) :: insertVar rest name val

/-- `HashMap::get` on a frame's variables. -/
def lookupVar : List (String × Value) → String → Option Value
  | [], _ => none
  | (k, w) :: rest, name => if k = name then some w else lookupVar rest name

/-- Walk of `Environment::retrieve` from `src/interpreter/environment.rs`:
look in the frame, else recurse into `enclosing`.  The fuel is an artifact
of the arena embedding; `frames.length + 1` always suffices because
`new_with_scope` only ever links a new frame to an existing one, so
`enclosing` indices strictly decrease along a chain. -/
def retrieveGo (frames : List Frame) (name : String) : Nat → Nat → IResult
  | 0, _ => .error ⟨0, "Variable \"" ++ name ++ "\" does not exist"⟩
  | Nat.succ fuel, idx =>
    match frames.get? idx with
    | none => .error ⟨0, "Variable \"" ++ name ++ "\" does not exist"⟩
    | some fr =>
      match lookupVar fr.vars name with
      | some v => .ok v
      | none =>
        match fr.enclosing with
        | some p => retrieveGo frames name fuel p
        | none => .error ⟨0, "Variable \"" ++ name ++ "\" does not exist"⟩

/-- `Environment::retrieve`, starting from the interpreter's current frame. -/
def envRetrieve (st : IState) (name : String) : IResult :=
  retrieveGo st.frames name (st.frames.length + 1) st.current

/-- Walk of `Environment::assign` from `src/interpreter/environment.rs`:
if the frame does not contain the key, recurse into `enclosing`; else
insert.  Fuel as in `retrieveGo`. -/
def assignGo (name : String) (val : Value) :
    Nat → Nat → List Frame → Except RuntimeError (List Frame)
  | 0, _, _ => .error ⟨0, "Variable \"" ++ name ++ "\" does not exist"⟩
  | Nat.succ fuel, idx, frames =>
    match frames.get? idx with
    | none => .error ⟨0, "Variable \"" ++ name ++ "\" does not exist"⟩
    | some fr =>
      if (lookupVar fr.vars name).isSome then
        .ok (frames.set idx { fr with vars := insertVar fr.vars name val })
      else
        match fr.enclosing with
        | some p => assignGo name val fuel p frames
        | none => .error ⟨0, "Variable \"" ++ name ++ "\" does not exist"⟩

/-- `Environment::assign`, starting from the interpreter's current frame. -/
def envAssign (st : IState) (name : String) (val : Value) :
    Except RuntimeError IState :=
  match assignGo name val (st.frames.length + 1) st.current st.frames with
  | .ok frames2 => .ok { st with frames := frames2 }
  | .error e => .error e

/-- `Environment::define`: insert into the current frame only. -/
def envDefine (st : IState) (name : String) (val : Value) : IState :=
  match st.frames.get? st.current with
  | some fr =>
    { st with frames :=
        st.frames.set st.current { fr with vars := insertVar fr.vars name val } }
  | none => st

/-- `fn is_truthy(expr: &Result<Value, RuntimeError>) -> bool` from
`src/interpreter.rs`: note that an `Err` result counts as truthy. -/
def isTruthy : IResult → Bool
  | .ok .Null => false
  | .ok (.BOOLEAN false) => false
  | _ => true

/-- `fn unwrap_number` from `src/interpreter.rs`: any result other than
`Ok(NUMBER _)` (a string, a boolean, nil, or an error) collapses to the
runtime error `Not a number` at line 0. -/
def unwrapNumber : IResult → Except RuntimeError ℚ
  | .ok (.NUMBER n) => .ok n
  | _ => .error ⟨0, "Not a number"⟩

/-- Display form of a value (`Value::to_string` in
`src/parser/expression.rs`), as printed by `visit_print`.  The numeric
rendering of the `ℚ` model stands in for Rust's `f64::to_string`. -/
def displayValue : Value → String
  | .BOOLEAN b => toString b
  | .NUMBER n => toString n
  | .STRING s => "\"" ++ s ++ "\""
  | .Null => "nil"

/-- Expression evaluation: the `ExpressionVisitor` implementation of
`Interpreter` in `src/interpreter.rs` (`visit_assign`, `visit_binary`,
`visit_logical`, `visit_literal`, `visit_unary`, `visit_grouping`,
`visit_variable`, `visit_error`), with the state threaded explicitly. -/
def evalExpr : IState → Expr → IResult × IState
  | st, .Assign name expr =>
    let (rv, st1) := evalExpr st expr
    match rv with
    | .error e => (.error e, st1)
    | .ok val =>
      match envAssign st1 name val with
      | .error e => (.error e, st1)
      | .ok st2 => (.ok val, st2)
  | st, .Binary l op r =>
    let (rl, st1) := evalExpr st l
    match unwrapNumber rl with
    | .error e => (.error e, st1)
    | .ok num =>
      let (rr, st2) := evalExpr st1 r
      match unwrapNumber rr with
      | .error e => (.error e, st2)
      | .ok num2 =>
        match op with
        | .Minus => (.ok (.NUMBER (num - num2)), st2)
        | .Plus => (.ok (.NUMBER (num + num2)), st2)
        | .Slash => (.ok (.NUMBER (num / num2)), st2)
        | .Star => (.ok (.NUMBER (num * num2)), st2)
        | _ => (.error ⟨0, "Invalid"⟩, st2)
  | st, .Logical l op r =>
    let (rl, st1) := evalExpr st l
    if op = .OR then
      if isTruthy rl then (rl, st1) else evalExpr st1 r
    else
      if !(isTruthy rl) then (rl, st1) else evalExpr st1 r
  | st, .Literal v => (.ok v, st)
  | st, .Unary op r =>
    let (rr, st1) := evalExpr st r
    match unwrapNumber rr with
    | .error e => (.error e, st1)
    | .ok num =>
      match op with
      | .Minus => (.ok (.NUMBER (-num)), st1)
      | .Plus => (.ok (.NUMBER num), st1)
      | _ => (.error ⟨0, "Can only prefix a number with + or -"⟩, st1)
  | st, .Grouping e => evalExpr st e
  | st, .Variable ident => (envRetrieve st ident, st)
  | st, .Error line message => (.error ⟨line, message⟩, st)

mutual

/-- Statement execution: the `StatementVisitor` implementation of
`Interpreter` in `src/interpreter.rs` (`visit_block`, `visit_if`,
`visit_while`, `visit_variable_def`, `visit_print`, `visit_expr`,
`visit_error`).  `none` means the fuel ran out (a `while` loop that has
not yet terminated).  Note, faithful to the source: `visit_block` restores
the saved environment only on the success path (the `?` operator returns
early on error); `visit_while` discards the body's result (`let _ =`) and
treats an erroring condition as truthy; `visit_if` runs a branch only for
`Ok(BOOLEAN _)` conditions; `visit_variable_def` without initializer
defines nothing; `visit_print` with an argument returns the printed value. -/
def execStmt : Nat → IState → Stmt → Option (IResult × IState)
  | 0, _, _ => none
  | Nat.succ fuel, st, .Block stmts =>
    let tmp := st.current
    let st1 : IState :=
      { st with frames := st.frames ++ [⟨[], some st.current⟩],
                current := st.frames.length }
    match execList fuel st1 stmts with
    | none => none
    | some (.error e, st2) => some (.error e, st2)
    | some (.ok _, st2) => some (.ok .Null, { st2 with current := tmp })
  | Nat.succ fuel, st, .If c t e =>
    let (rc, st1) := evalExpr st c
    match rc with
    | .ok (.BOOLEAN true) => execStmt fuel st1 t
    | .ok (.BOOLEAN false) =>
      match e with
      | some eb => execStmt fuel st1 eb
      | none => some (.ok .Null, st1)
    | _ => some (.ok .Null, st1)
  | Nat.succ fuel, st, .While c b =>
    let (rc, st1) := evalExpr st c
    if isTruthy rc then
      match execStmt fuel st1 b with
      | none => none
      | some (_, st2) => execStmt fuel st2 (.While c b)
    else
      some (.ok .Null, st1)
  | Nat.succ _, st, .VariableDef ident (some expr) =>
    let (rv, st1) := evalExpr st expr
    match rv with
    | .ok val => some (.ok .Null, envDefine st1 ident val)
    | .error e => some (.error e, st1)
  | Nat.succ _, st, .VariableDef _ none => some (.ok .Null, st)
  | Nat.succ _, st, .Print (some e) =>
    let (rv, st1) := evalExpr st e
    match rv with
    | .error e2 => some (.error e2, st1)
    | .ok val => some (.ok val, { st1 with output := st1.output ++ [displayValue val] })
  | Nat.succ _, st, .Print none => some (.ok .Null, st)
  | Nat.succ _, st, .Expr e =>
    let (rv, st1) := evalExpr st e
    some (rv, st1)
  | Nat.succ _, st, .Error line message => some (.error ⟨line, message⟩, st)

/-- The `for stmt in stmts { self.execute(stmt)?; }` loop of `visit_block`:
run the statements in order, stopping at the first error. -/
def execList : Nat → IState → List Stmt → Option (IResult × IState)
  | 0, _, _ => none
  | Nat.succ _, st, [] => some (.ok .Null, st)
  | Nat.succ fuel, st, s :: rest =>
    match execStmt fuel st s with
    | none => none
    | some (.error e, st1) => some (.error e, st1)
    | some (.ok _, st1) => execList fuel st1 rest

end

/-- A fresh interpreter (`Interpreter::new`): one empty global frame. -/
def initState : IState := ⟨[⟨[], none⟩], 0, []⟩

/-- Modelled from the spec: the `Parser` struct of the `src/parser` module
is not under `src/` (only its `statement`/`expression` submodules and
their tests are); per §4.2 it consumes a token slice via a peekable
cursor, so it is modelled as the token list plus a cursor index. -/
structure Parser where
  tokens : List LToken
  cursor : Nat

/-- Modelled from the spec: `Parser::peek_kind`, the lexeme kind at the
cursor (used by `src/parser/statement.rs`). -/
def peekKind (p : Parser) : Option LexemeKind :=
  (p.tokens.get? p.cursor).map (fun t => t.lexeme)

/-- Modelled from the spec: `Parser::at(kind)`, whether the token at the
cursor has the given lexeme kind (used by `src/parser/statement.rs`). -/
def atKind (p : Parser) (k : LexemeKind) : Bool :=
  peekKind p = some k

/-- Modelled from the spec: `Parser::expect(kind)`, a check (without
advancing) that the token at the cursor has the given kind, as used by
`print_stmt` in `src/parser/statement.rs`, which bumps the cursor itself
after an `Ok`. -/
def expectKind (p : Parser) (k : LexemeKind) : Except Unit Unit :=
  if peekKind p = some k then .ok () else .error ()

/-- `fn print_stmt(p: &mut Parser)` from `src/parser/statement.rs`.  The
expression parser (`Parser::expression`, not under `src/`) is passed as a
parameter; the `print()` path never invokes it.  Faithful details: the
cursor is bumped once unconditionally (assuming a `(`); an empty argument
list yields `Stmt::Print(None)`; the trailing semicolon is optional; a
missing `)` yields `Stmt::Error`. -/
def printStmt (pexpr : Parser → Option Expr × Parser) (p : Parser) :
    Option Stmt × Parser :=
  let p1 : Parser := { p with cursor := p.cursor + 1 }
  match peekKind p1 with
  | some .RightParen => (some (.Print none), { p1 with cursor := p1.cursor + 1 })
  | _ =>
    let (e, p2) := pexpr p1
    match expectKind p2 .RightParen with
    | .ok _ =>
      let p3 : Parser := { p2 with cursor := p2.cursor + 1 }
      let p4 : Parser :=
        match expectKind p3 .Semicolon with
        | .ok _ => { p3 with cursor := p3.cursor + 1 }
        | .error _ => p3
      (some (.Print e), p4)
    | .error _ => (some (.Error 0 "Unfinished print statement"), p2)

/-- `fn statement(p: &mut Parser)` from `src/parser/statement.rs`: a
`print` keyword dispatches to `print_stmt`; anything else falls through to
an expression statement. -/
def pStatement (pexpr : Parser → Option Expr × Parser) (p : Parser) :
    Option Stmt × Parser :=
  if atKind p .PRINT then
    printStmt pexpr { p with cursor := p.cursor + 1 }
  else
    let (e, p1) := pexpr p
    match e with
    | some expr => (some (.Expr expr), p1)
    | none => (none, p1)

end Interp

namespace Front

/-- Lexemes, from `src/token.rs` (`enum Lexeme`). -/
inductive Lexeme where
  | LeftParen | RightParen | LeftBrace | RightBrace
  | Comma | Dot | Minus | Plus | Semicolon | Slash | Star
  | Bang | BangEqual | Equal | EqualEqual
  | Greater | GreaterEqual | Less | LessEqual
  | Identifier (s : String)
  | String (s : String)
  | Number (n : ℚ)
  | And | Class | Else | False | Fun | For | If | Nil | Or
  | Print | Return | Super | This | True | Var | While
  | Eof
  deriving DecidableEq, Repr

/-- Tokens, from `src/token.rs` (`struct Token { lexeme, line }`). -/
structure Token where
  lexeme : Lexeme
  line : Nat
  deriving DecidableEq, Repr

/-- Scan error kinds, from `src/scanner.rs` (`enum ScanErrorType`). -/
inductive ScanErrorType where
  | UnexpectedCharacter (c : Char)
  | UnterminatedString
  deriving DecidableEq, Repr

/-- `struct ScanError { line, error }` from `src/scanner.rs`. -/
structure ScanError where
  line : Nat
  error : ScanErrorType
  deriving DecidableEq, Repr

/-- `ScanResult = Result<Token, ScanError>`. -/
abbrev ScanResult := Except ScanError Token

/-- `fn is_digit` from `src/scanner.rs`. -/
def isDigit (c : Char) : Bool :=
  '0' ≤ c && c ≤ '9'

/-- `fn is_alpha` from `src/scanner.rs`. -/
def isAlpha (c : Char) : Bool :=
  ('a' ≤ c && c ≤ 'z') || ('A' ≤ c && c ≤ 'Z') || c = '_'

/-- `fn is_alpha_numeric` from `src/scanner.rs`. -/
def isAlphaNumeric (c : Char) : Bool :=
  isAlpha c || isDigit c

/-- Outcome of one turn of the scanning loop in
`<Scanner as Iterator>::next` of `src/scanner.rs`: either the turn only
consumed input (whitespace, a newline, a `//` comment) and the loop
`continue`s, or it emits a token or scan error.  `rest` is the input left
after the turn and `line` the updated line counter. -/
structure Step where
  emitted : Option ScanResult
  rest : List Char
  line : Nat
  deriving DecidableEq, Repr

/-- `Scanner::if_match` from `src/scanner.rs`: peek one character; on a
match consume it and emit the two-character lexeme. -/
def ifMatch (cmp : Char) (matchLexeme nonMatchLexeme : Lexeme)
    (cs : List Char) (line : Nat) : Step :=
  if cs.head? = some cmp then ⟨some (.ok ⟨matchLexeme, line⟩), cs.drop 1, line⟩
  else ⟨some (.ok ⟨nonMatchLexeme, line⟩), cs, line⟩

/-- `Scanner::string` from `src/scanner.rs`: collect until `"`, counting
newlines into the line counter; end of input without the closing quote is
`UnterminatedString`; otherwise the closing quote is consumed. -/
def stringStep (cs : List Char) (line : Nat) : Step :=
  let content := cs.takeWhile (fun c => c ≠ '"')
  let line2 := line + content.countP (fun c => c = '\n')
  let rest1 := cs.dropWhile (fun c => c ≠ '"')
  if rest1 = [] then ⟨some (.error ⟨line2, .UnterminatedString⟩), [], line2⟩
  else ⟨some (.ok ⟨.String (String.mk content), line2⟩), rest1.drop 1, line2⟩

/-- `Scanner::number` from `src/scanner.rs`: digits, then a fractional part
only if a `.` is followed by a digit (two-character lookahead).  The
`parse().unwrap()` cannot fail here: the buffer is digits with at most one
dot, and its value is modelled exactly in `ℚ` by `ratOfParts`. -/
def numberStep (firstDigit : Char) (cs : List Char) (line : Nat) : Step :=
  let ds := firstDigit :: cs.takeWhile isDigit
  let rest1 := cs.dropWhile isDigit
  if rest1.head? == some '.' && (rest1.get? 1).elim false isDigit then
    let frac := (rest1.drop 1).takeWhile isDigit
    let rest2 := (rest1.drop 1).dropWhile isDigit
    ⟨some (.ok ⟨.Number (Interp.ratOfParts ds frac), line⟩), rest2, line⟩
  else
    ⟨some (.ok ⟨.Number (Interp.ratOfParts ds []), line⟩), rest1, line⟩

/-- The keyword table of `Scanner::identifier` from `src/scanner.rs`. -/
def identKeyword (ident : String) : Lexeme :=
  match ident with
  | "and" => .And
  | "class" => .Class
  | "else" => .Else
  | "false" => .False
  | "for" => .For
  | "fun" => .Fun
  | "if" => .If
  | "nil" => .Nil
  | "or" => .Or
  | "print" => .Print
  | "return" => .Return
  | "super" => .Super
  | "this" => .This
  | "true" => .True
  | "var" => .Var
  | "while" => .While
  | _ => .Identifier ident

/-- `Scanner::identifier` from `src/scanner.rs`. -/
def identStep (firstChar : Char) (cs : List Char) (line : Nat) : Step :=
  let chars := firstChar :: cs.takeWhile isAlphaNumeric
  let rest := cs.dropWhile isAlphaNumeric
  ⟨some (.ok ⟨identKeyword (String.mk chars), line⟩), rest, line⟩

/-- One turn of the scanning loop of `<Scanner as Iterator>::next` in
`src/scanner.rs`, acting on the consumed character `c` and the remaining
input `cs`.  Note the `//` arm: `take_while(|c| *c != '\n')` consumes the
terminating newline itself (without the `'\n'` arm ever seeing it, so the
line counter is not incremented for it). -/
def scanStep (c : Char) (cs : List Char) (line : Nat) : Step :=
  if c = '(' then ⟨some (.ok ⟨.LeftParen, line⟩), cs, line⟩
  else if c = ')' then ⟨some (.ok ⟨.RightParen, line⟩), cs, line⟩
  else if c = '{' then ⟨some (.ok ⟨.LeftBrace, line⟩), cs, line⟩
  else if c = '}' then ⟨some (.ok ⟨.RightBrace, line⟩), cs, line⟩
  else if c = ',' then ⟨some (.ok ⟨.Comma, line⟩), cs, line⟩
  else if c = '.' then ⟨some (.ok ⟨.Dot, line⟩), cs, line⟩
  else if c = '-' then ⟨some (.ok ⟨.Minus, line⟩), cs, line⟩
  else if c = '+' then ⟨some (.ok ⟨.Plus, line⟩), cs, line⟩
  else if c = ';' then ⟨some (.ok ⟨.Semicolon, line⟩), cs, line⟩
  else if c = '*' then ⟨some (.ok ⟨.Star, line⟩), cs, line⟩
  else if c = '!' then ifMatch '=' .BangEqual .Bang cs line
  else if c = '=' then ifMatch '=' .EqualEqual .Equal cs line
  else if c = '<' then ifMatch '=' .LessEqual .Less cs line
  else if c = '>' then ifMatch '=' .GreaterEqual .Greater cs line
  else if c = '/' then
    if cs.head? = some '/' then
      ⟨none, (cs.dropWhile (fun x => x ≠ '\n')).drop 1, line⟩
    else ⟨some (.ok ⟨.Slash, line⟩), cs, line⟩
  else if c = ' ' ∨ c = '\r' ∨ c = '\t' then ⟨none, cs, line⟩
  else if c = '\n' then ⟨none, cs, line + 1⟩
  else if c = '"' then stringStep cs line
  else if isDigit c then numberStep c cs line
  else if isAlpha c then identStep c cs line
  else ⟨some (.error ⟨line, .UnexpectedCharacter c⟩), cs, line⟩

/-- The full stream that collecting the `src/scanner.rs` iterator produces:
turns of the loop until a token or error is emitted, and a final `Eof`
token (after which `done` is set and the iterator yields `None`).  The
fuel argument exists only to satisfy termination; any fuel above the
input length suffices (each turn consumes at least one character). -/
def scanAll : Nat → List Char → Nat → List ScanResult
  | 0, _, _ => []
  | Nat.succ _, [], line => [.ok ⟨.Eof, line⟩]
  | Nat.succ fuel, c :: cs, line =>
    let st := scanStep c cs line
    match st.emitted with
    | none => scanAll fuel st.rest st.line
    | some r => r :: scanAll fuel st.rest st.line

/-- Whether a scan result is the `Eof` token. -/
def isEofRes : ScanResult → Bool
  | .ok ⟨.Eof, _⟩ => true
  | _ => false

/-- Runtime values, from `src/expression.rs` (`enum Value`). -/
inductive FValue where
  | String (s : String)
  | Number (n : ℚ)
  | Bool (b : Bool)
  | Nil
  deriving DecidableEq, Repr

/-- Expressions, from `src/expression.rs` (`enum Expression`). -/
inductive Expression where
  | Assign (name : Token) (value : Expression)
  | Binary (left : Expression) (operator : Token) (right : Expression)
  | Grouping (e : Expression)
  | Literal (v : FValue)
  | Unary (operator : Token) (expression : Expression)
  | Variable (name : Token)
  deriving DecidableEq, Repr

/-- Statements, from `src/statement.rs` (`enum Statement`).  The `Block`
variant exists in the source but is never produced by `src/parser.rs`. -/
inductive Statement where
  | Block (statements : List Statement)
  | Expression (e : Expression)
  | Print (e : Expression)
  | Var (name : Token) (initializer : Option Expression)

/-- Parse errors, from `src/parser.rs` (`enum ParseError`). -/
inductive ParseError where
  | InvalidAssignmentTarget (token : Token)
  | UnexpectedToken (token : Token) (message : String)
  | UnexpectedEnd
  deriving DecidableEq, Repr

/-- `Parser::consume` from `src/parser.rs`: peek; if the predicate holds,
advance and return the token, else an `UnexpectedToken` (or
`UnexpectedEnd` when the stream is exhausted). -/
def consume (ts : List Token) (pred : Lexeme → Bool) (message : String) :
    Except ParseError (Token × List Token) :=
  match ts with
  | [] => .error .UnexpectedEnd
  | t :: rest =>
    if pred t.lexeme then .ok (t, rest) else .error (.UnexpectedToken t message)

mutual

/-- `Parser::expression` from `src/parser.rs`.  All the parse functions
take a fuel argument (decremented on every call) purely to satisfy
termination; `none` means the fuel ran out, and any fuel larger than a few
times the token count is enough.  The token cursor is the remaining token
list; on a parse error the rest of the stream is dropped (the embedding
does not model pulling further statements after an error). -/
def pExpression : Nat → List Token → Option (Except ParseError (Expression × List Token))
  | 0, _ => none
  | Nat.succ fuel, ts => pAssignment fuel ts

/-- `Parser::assignment` from `src/parser.rs`: parse an `equality`; on a
`=` token parse the right-hand side recursively, and accept only if the
left side was a `Variable` expression, else `InvalidAssignmentTarget`
anchored at the `=` token.  There is no `logic_or`/`logic_and` level. -/
def pAssignment : Nat → List Token → Option (Except ParseError (Expression × List Token))
  | 0, _ => none
  | Nat.succ fuel, ts =>
    match pEquality fuel ts with
    | none => none
    | some (.error e) => some (.error e)
    | some (.ok (expr, ts1)) =>
      match ts1 with
      | equals :: ts2 =>
        match equals.lexeme with
        | .Equal =>
          (match pAssignment fuel ts2 with
           | none => none
           | some (.error e) => some (.error e)
           | some (.ok (value, ts3)) =>
             match expr with
             | .Variable name => some (.ok (.Assign name value, ts3))
             | _ => some (.error (.InvalidAssignmentTarget equals)))
        | _ => some (.ok (expr, ts1))
      | [] => some (.ok (expr, ts1))

/-- `Parser::equality` from `src/parser.rs` (the leading `comparision`). -/
def pEquality : Nat → List Token → Option (Except ParseError (Expression × List Token))
  | 0, _ => none
  | Nat.succ fuel, ts =>
    match pComparision fuel ts with
    | none => none
    | some (.error e) => some (.error e)
    | some (.ok (expr, ts1)) => pEqualityLoop fuel expr ts1

/-- The `while matches!(…, BangEqual | EqualEqual)` fold of
`Parser::equality`, building left-associative `Binary` nodes. -/
def pEqualityLoop : Nat → Expression → List Token → Option (Except ParseError (Expression × List Token))
  | 0, _, _ => none
  | Nat.succ fuel, expr, ts =>
    match ts with
    | op :: rest =>
      match op.lexeme with
      | .BangEqual | .EqualEqual =>
        (match pComparision fuel rest with
         | none => none
         | some (.error e) => some (.error e)
         | some (.ok (right, ts2)) =>
           pEqualityLoop fuel (.Binary expr op right) ts2)
      | _ => some (.ok (expr, ts))
    | [] => some (.ok (expr, ts))

/-- `Parser::comparision` from `src/parser.rs` (the leading `term`). -/
def pComparision : Nat → List Token → Option (Except ParseError (Expression × List Token))
  | 0, _ => none
  | Nat.succ fuel, ts =>
    match pTerm fuel ts with
    | none => none
    | some (.error e) => some (.error e)
    | some (.ok (expr, ts1)) => pComparisionLoop fuel expr ts1

/-- The `Greater | GreaterEqual | Less | LessEqual` fold of
`Parser::comparision`. -/
def pComparisionLoop : Nat → Expression → List Token → Option (Except ParseError (Expression × List Token))
  | 0, _, _ => none
  | Nat.succ fuel, expr, ts =>
    match ts with
    | op :: rest =>
      match op.lexeme with
      | .Greater | .GreaterEqual | .Less | .LessEqual =>
        (match pTerm fuel rest with
         | none => none
         | some (.error e) => some (.error e)
         | some (.ok (right, ts2)) =>
           pComparisionLoop fuel (.Binary expr op right) ts2)
      | _ => some (.ok (expr, ts))
    | [] => some (.ok (expr, ts))

/-- `Parser::term` from `src/parser.rs` (the leading `factor`). -/
def pTerm : Nat → List Token → Option (Except ParseError (Expression × List Token))
  | 0, _ => none
  | Nat.succ fuel, ts =>
    match pFactor fuel ts with
    | none => none
    | some (.error e) => some (.error e)
    | some (.ok (expr, ts1)) => pTermLoop fuel expr ts1

/-- The `Minus | Plus` fold of `Parser::term`. -/
def pTermLoop : Nat → Expression → List Token → Option (Except ParseError (Expression × List Token))
  | 0, _, _ => none
  | Nat.succ fuel, expr, ts =>
    match ts with
    | op :: rest =>
      match op.lexeme with
      | .Minus | .Plus =>
        (match pFactor fuel rest with
         | none => none
         | some (.error e) => some (.error e)
         | some (.ok (right, ts2)) =>
           pTermLoop fuel (.Binary expr op right) ts2)
      | _ => some (.ok (expr, ts))
    | [] => some (.ok (expr, ts))

/-- `Parser::factor` from `src/parser.rs` (the leading `unary`). -/
def pFactor : Nat → List Token → Option (Except ParseError (Expression × List Token))
  | 0, _ => none
  | Nat.succ fuel, ts =>
    match pUnary fuel ts with
    | none => none
    | some (.error e) => some (.error e)
    | some (.ok (expr, ts1)) => pFactorLoop fuel expr ts1

/-- The `Slash | Star` fold of `Parser::factor`. -/
def pFactorLoop : Nat → Expression → List Token → Option (Except ParseError (Expression × List Token))
  | 0, _, _ => none
  | Nat.succ fuel, expr, ts =>
    match ts with
    | op :: rest =>
      match op.lexeme with
      | .Slash | .Star =>
        (match pUnary fuel rest with
         | none => none
         | some (.error e) => some (.error e)
         | some (.ok (right, ts2)) =>
           pFactorLoop fuel (.Binary expr op right) ts2)
      | _ => some (.ok (expr, ts))
    | [] => some (.ok (expr, ts))

/-- `Parser::unary` from `src/parser.rs`: right-associative `!`/`-`. -/
def pUnary : Nat → List Token → Option (Except ParseError (Expression × List Token))
  | 0, _ => none
  | Nat.succ fuel, ts =>
    match ts with
    | op :: rest =>
      match op.lexeme with
      | .Bang | .Minus =>
        (match pUnary fuel rest with
         | none => none
         | some (.error e) => some (.error e)
         | some (.ok (right, ts2)) =>
           some (.ok (.Unary op right, ts2)))
      | _ => pPrimary fuel ts
    | [] => pPrimary fuel ts

/-- `Parser::primary` from `src/parser.rs`: literals, identifiers, and
parenthesised groupings. -/
def pPrimary : Nat → List Token → Option (Except ParseError (Expression × List Token))
  | 0, _ => none
  | Nat.succ fuel, ts =>
    match ts with
    | [] => some (.error .UnexpectedEnd)
    | t :: rest =>
      match t.lexeme with
      | .False => some (.ok (.Literal (.Bool false), rest))
      | .True => some (.ok (.Literal (.Bool true), rest))
      | .Nil => some (.ok (.Literal .Nil, rest))
      | .Number n => some (.ok (.Literal (.Number n), rest))
      | .String s => some (.ok (.Literal (.String s), rest))
      | .Identifier _ => some (.ok (.Variable t, rest))
      | .LeftParen =>
        (match pExpression fuel rest with
         | none => none
         | some (.error e) => some (.error e)
         | some (.ok (expr, ts1)) =>
           match consume ts1
               (fun l => match l with | .RightParen => true | _ => false)
               "Expected ')' after expression." with
           | .ok (_, ts2) => some (.ok (.Grouping expr, ts2))
           | .error e => some (.error e))
      | _ => some (.error (.UnexpectedToken t "Expected expression."))

end

/-- `Parser::var_declaration` from `src/parser.rs`. -/
def pVarDeclaration (fuel : Nat) (ts : List Token) :
    Option (Except ParseError (Statement × List Token)) :=
  match consume ts
      (fun l => match l with | .Identifier _ => true | _ => false)
      "Expected variable name." with
  | .error e => some (.error e)
  | .ok (name, ts1) =>
    match ts1 with
    | t :: ts2 =>
      match t.lexeme with
      | .Equal =>
        (match pExpression fuel ts2 with
         | none => none
         | some (.error e) => some (.error e)
         | some (.ok (expr, ts3)) =>
           match consume ts3
               (fun l => match l with | .Semicolon => true | _ => false)
               "Expected ';' after variable declaration." with
           | .ok (_, ts4) => some (.ok (.Var name (some expr), ts4))
           | .error e => some (.error e))
      | _ =>
        (match consume ts1
            (fun l => match l with | .Semicolon => true | _ => false)
            "Expected ';' after variable declaration." with
         | .ok (_, ts4) => some (.ok (.Var name none, ts4))
         | .error e => some (.error e))
    | [] =>
      match consume ts1
          (fun l => match l with | .Semicolon => true | _ => false)
          "Expected ';' after variable declaration." with
      | .ok (_, ts4) => some (.ok (.Var name none, ts4))
      | .error e => some (.error e)

/-- `Parser::print_statement` from `src/parser.rs`. -/
def pPrintStatement (fuel : Nat) (ts : List Token) :
    Option (Except ParseError (Statement × List Token)) :=
  match pExpression fuel ts with
  | none => none
  | some (.error e) => some (.error e)
  | some (.ok (expr, ts1)) =>
    match consume ts1
        (fun l => match l with | .Semicolon => true | _ => false)
        "Expected ';' after value." with
    | .ok (_, ts2) => some (.ok (.Print expr, ts2))
    | .error e => some (.error e)

/-- `Parser::expression_statement` from `src/parser.rs`. -/
def pExpressionStatement (fuel : Nat) (ts : List Token) :
    Option (Except ParseError (Statement × List Token)) :=
  match pExpression fuel ts with
  | none => none
  | some (.error e) => some (.error e)
  | some (.ok (expr, ts1)) =>
    match consume ts1
        (fun l => match l with | .Semicolon => true | _ => false)
        "Expected ';' after value." with
    | .ok (_, ts2) => some (.ok (.Expression expr, ts2))
    | .error e => some (.error e)

/-- `Parser::statement` from `src/parser.rs`: a `print` keyword dispatches
to `print_statement`, anything else to `expression_statement`. -/
def pStatementF (fuel : Nat) (ts : List Token) :
    Option (Except ParseError (Statement × List Token)) :=
  match ts with
  | t :: rest =>
    match t.lexeme with
    | .Print => pPrintStatement fuel rest
    | _ => pExpressionStatement fuel ts
  | [] => pExpressionStatement fuel ts

/-- `Parser::declaration` from `src/parser.rs`: a `var` keyword dispatches
to `var_declaration`, anything else to `statement`. -/
def pDeclaration (fuel : Nat) (ts : List Token) :
    Option (Except ParseError (Statement × List Token)) :=
  match ts with
  | t :: rest =>
    match t.lexeme with
    | .Var => pVarDeclaration fuel rest
    | _ => pStatementF fuel ts
  | [] => pStatementF fuel ts

/-- `<Parser as Iterator>::next` from `src/parser.rs`: `Eof` at the cursor
ends the iteration (inner `none`), anything else pulls one declaration.
The outer `Option` is fuel exhaustion. -/
def parserNext (fuel : Nat) (ts : List Token) :
    Option (Option (Except ParseError (Statement × List Token))) :=
  match ts with
  | t :: _ =>
    match t.lexeme with
    | .Eof => some none
    | _ => (pDeclaration fuel ts).map some
  | [] => (pDeclaration fuel ts).map some

theorem dropWhileLen (p : Char → Bool) (l : List Char) :
    (l.dropWhile p).length ≤ l.length :=
  (List.dropWhile_suffix p).sublist.length_le

theorem dropLen (l : List Char) (n : Nat) : (l.drop n).length ≤ l.length := by
  simp [List.length_drop]

theorem dropWhileDropLen (p : Char → Bool) (l : List Char) (n : Nat) :
    ((l.dropWhile p).drop n).length ≤ l.length :=
  le_trans (dropLen _ n) (dropWhileLen p l)

theorem ifMatch_rest_le (cmp : Char) (m nm : Lexeme) (cs : List Char) (line : Nat) :
    (ifMatch cmp m nm cs line).rest.length ≤ cs.length := by
  unfold ifMatch
  split_ifs
  · exact dropLen _ 1
  · exact le_refl _

theorem stringStep_rest_le (cs : List Char) (line : Nat) :
    (stringStep cs line).rest.length ≤ cs.length := by
  unfold stringStep
  dsimp only
  split_ifs
  · exact Nat.zero_le _
  · exact dropWhileDropLen _ _ 1

theorem numberStep_rest_le (c : Char) (cs : List Char) (line : Nat) :
    (numberStep c cs line).rest.length ≤ cs.length := by
  unfold numberStep
  dsimp only
  split_ifs
  · exact le_trans (dropWhileLen _ _) (dropWhileDropLen _ _ 1)
  · exact dropWhileLen _ _

theorem identStep_rest_le (c : Char) (cs : List Char) (line : Nat) :
    (identStep c cs line).rest.length ≤ cs.length := by
  unfold identStep
  exact dropWhileLen _ _

set_option maxHeartbeats 1000000 in
/-- Every turn of the scanner leaves no more input than it started with. -/
theorem scanStep_rest_le (c : Char) (cs : List Char) (line : Nat) :
    (scanStep c cs line).rest.length ≤ cs.length := by
  unfold scanStep
  by_cases h1 : c = '('
  · rw [if_pos h1]
  rw [if_neg h1]
  by_cases h2 : c = ')'
  · rw [if_pos h2]
  rw [if_neg h2]
  by_cases h3 : c = '{'
  · rw [if_pos h3]
  rw [if_neg h3]
  by_cases h4 : c = '}'
  · rw [if_pos h4]
  rw [if_neg h4]
  by_cases h5 : c = ','
  · rw [if_pos h5]
  rw [if_neg h5]
  by_cases h6 : c = '.'
  · rw [if_pos h6]
  rw [if_neg h6]
  by_cases h7 : c = '-'
  · rw [if_pos h7]
  rw [if_neg h7]
  by_cases h8 : c = '+'
  · rw [if_pos h8]
  rw [if_neg h8]
  by_cases h9 : c = ';'
  · rw [if_pos h9]
  rw [if_neg h9]
  by_cases h10 : c = '*'
  · rw [if_pos h10]
  rw [if_neg h10]
  by_cases h11 : c = '!'
  · rw [if_pos h11]; exact ifMatch_rest_le _ _ _ _ _
  rw [if_neg h11]
  by_cases h12 : c = '='
  · rw [if_pos h12]; exact ifMatch_rest_le _ _ _ _ _
  rw [if_neg h12]
  by_cases h13 : c = '<'
  · rw [if_pos h13]; exact ifMatch_rest_le _ _ _ _ _
  rw [if_neg h13]
  by_cases h14 : c = '>'
  · rw [if_pos h14]; exact ifMatch_rest_le _ _ _ _ _
  rw [if_neg h14]
  by_cases h15 : c = '/'
  · rw [if_pos h15]
    by_cases hsl : cs.head? = some '/'
    · rw [if_pos hsl]; exact dropWhileDropLen _ _ 1
    · rw [if_neg hsl]
  rw [if_neg h15]
  by_cases h16 : c = ' ' ∨ c = '\r' ∨ c = '\t'
  · rw [if_pos h16]
  rw [if_neg h16]
  by_cases h17 : c = '\n'
  · rw [if_pos h17]
  rw [if_neg h17]
  by_cases h18 : c = '"'
  · rw [if_pos h18]; exact stringStep_rest_le _ _
  rw [if_neg h18]
  by_cases h19 : isDigit c = true
  · rw [if_pos h19]; exact numberStep_rest_le _ _ _
  rw [if_neg h19]
  by_cases h20 : isAlpha c = true
  · rw [if_pos h20]; exact identStep_rest_le _ _ _
  rw [if_neg h20]

theorem not_eof_of_emitted {X r : ScanResult} (h : some X = some r)
    (hx : isEofRes X = false) : isEofRes r = false := by
  injection h with h2
  subst h2
  exact hx

theorem ifMatch_emitted (cmp : Char) (m nm : Lexeme) (cs : List Char) (line : Nat) :
    (ifMatch cmp m nm cs line).emitted = some (.ok ⟨m, line⟩) ∨
      (ifMatch cmp m nm cs line).emitted = some (.ok ⟨nm, line⟩) := by
  unfold ifMatch
  split_ifs
  · exact Or.inl rfl
  · exact Or.inr rfl

theorem stringStep_not_eof (cs : List Char) (line : Nat) (r : ScanResult)
    (h : (stringStep cs line).emitted = some r) : isEofRes r = false := by
  unfold stringStep at h
  dsimp only at h
  split_ifs at h
  · exact not_eof_of_emitted h rfl
  · exact not_eof_of_emitted h rfl

theorem numberStep_not_eof (c : Char) (cs : List Char) (line : Nat) (r : ScanResult)
    (h : (numberStep c cs line).emitted = some r) : isEofRes r = false := by
  unfold numberStep at h
  dsimp only at h
  split_ifs at h
  · exact not_eof_of_emitted h rfl
  · exact not_eof_of_emitted h rfl

theorem identKeyword_not_eof (s : String) (line : Nat) :
    isEofRes (.ok ⟨identKeyword s, line⟩) = false := by
  unfold identKeyword
  split <;> rfl

theorem identStep_not_eof (c : Char) (cs : List Char) (line : Nat) (r : ScanResult)
    (h : (identStep c cs line).emitted = some r) : isEofRes r = false := by
  unfold identStep at h
  exact not_eof_of_emitted h (identKeyword_not_eof _ _)

set_option maxHeartbeats 1000000 in
/-- No turn of the scanning loop other than end-of-input emits `Eof`. -/
theorem scanStep_not_eof (c : Char) (cs : List Char) (line : Nat) (r : ScanResult)
    (h : (scanStep c cs line).emitted = some r) : isEofRes r = false := by
  unfold scanStep at h
  by_cases h1 : c = '('
  · rw [if_pos h1] at h; exact not_eof_of_emitted h rfl
  rw [if_neg h1] at h
  by_cases h2 : c = ')'
  · rw [if_pos h2] at h; exact not_eof_of_emitted h rfl
  rw [if_neg h2] at h
  by_cases h3 : c = '{'
  · rw [if_pos h3] at h; exact not_eof_of_emitted h rfl
  rw [if_neg h3] at h
  by_cases h4 : c = '}'
  · rw [if_pos h4] at h; exact not_eof_of_emitted h rfl
  rw [if_neg h4] at h
  by_cases h5 : c = ','
  · rw [if_pos h5] at h; exact not_eof_of_emitted h rfl
  rw [if_neg h5] at h
  by_cases h6 : c = '.'
  · rw [if_pos h6] at h; exact not_eof_of_emitted h rfl
  rw [if_neg h6] at h
  by_cases h7 : c = '-'
  · rw [if_pos h7] at h; exact not_eof_of_emitted h rfl
  rw [if_neg h7] at h
  by_cases h8 : c = '+'
  · rw [if_pos h8] at h; exact not_eof_of_emitted h rfl
  rw [if_neg h8] at h
  by_cases h9 : c = ';'
  · rw [if_pos h9] at h; exact not_eof_of_emitted h rfl
  rw [if_neg h9] at h
  by_cases h10 : c = '*'
  · rw [if_pos h10] at h; exact not_eof_of_emitted h rfl
  rw [if_neg h10] at h
  by_cases h11 : c = '!'
  · rw [if_pos h11] at h
    rcases ifMatch_emitted '=' _ _ cs line with he | he <;> rw [he] at h <;>
      exact not_eof_of_emitted h rfl
  rw [if_neg h11] at h
  by_cases h12 : c = '='
  · rw [if_pos h12] at h
    rcases ifMatch_emitted '=' _ _ cs line with he | he <;> rw [he] at h <;>
      exact not_eof_of_emitted h rfl
  rw [if_neg h12] at h
  by_cases h13 : c = '<'
  · rw [if_pos h13] at h
    rcases ifMatch_emitted '=' _ _ cs line with he | he <;> rw [he] at h <;>
      exact not_eof_of_emitted h rfl
  rw [if_neg h13] at h
  by_cases h14 : c = '>'
  · rw [if_pos h14] at h
    rcases ifMatch_emitted '=' _ _ cs line with he | he <;> rw [he] at h <;>
      exact not_eof_of_emitted h rfl
  rw [if_neg h14] at h
  by_cases h15 : c = '/'
  · rw [if_pos h15] at h
    by_cases hsl : cs.head? = some '/'
    · rw [if_pos hsl] at h; exact absurd h (by simp)
    · rw [if_neg hsl] at h; exact not_eof_of_emitted h rfl
  rw [if_neg h15] at h
  by_cases h16 : c = ' ' ∨ c = '\r' ∨ c = '\t'
  · rw [if_pos h16] at h; exact absurd h (by simp)
  rw [if_neg h16] at h
  by_cases h17 : c = '\n'
  · rw [if_pos h17] at h; exact absurd h (by simp)
  rw [if_neg h17] at h
  by_cases h18 : c = '"'
  · rw [if_pos h18] at h; exact stringStep_not_eof _ _ _ h
  rw [if_neg h18] at h
  by_cases h19 : isDigit c = true
  · rw [if_pos h19] at h; exact numberStep_not_eof _ _ _ _ h
  rw [if_neg h19] at h
  by_cases h20 : isAlpha c = true
  · rw [if_pos h20] at h; exact identStep_not_eof _ _ _ _ h
  rw [if_neg h20] at h
  exact not_eof_of_emitted h rfl


/-- Shape of every scan with enough fuel: some non-`Eof` results followed
by exactly one final `Eof` token. -/
theorem scanAll_shape : ∀ (fuel : Nat) (cs : List Char), cs.length < fuel → ∀ line : Nat,
    ∃ front t, scanAll fuel cs line = front ++ [t] ∧ isEofRes t = true ∧
      front.countP (fun r => isEofRes r) = 0 := by
  intro fuel
  induction fuel with
  | zero => intro cs h; exact absurd h (Nat.not_lt_zero _)
  | succ n ih =>
    intro cs hlen line
    cases cs with
    | nil =>
      refine ⟨[], .ok ⟨.Eof, line⟩, ?_, rfl, rfl⟩
      rw [scanAll]
      rfl
    | cons c cs2 =>
      have hlen2 : cs2.length < n := by simp at hlen; omega
      have hrest : (scanStep c cs2 line).rest.length < n :=
        lt_of_le_of_lt (scanStep_rest_le c cs2 line) hlen2
      cases he : (scanStep c cs2 line).emitted with
      | none =>
        obtain ⟨front, t, heq, ht, hcnt⟩ := ih _ hrest (scanStep c cs2 line).line
        refine ⟨front, t, ?_, ht, hcnt⟩
        rw [scanAll, he]
        exact heq
      | some r =>
        obtain ⟨front, t, heq, ht, hcnt⟩ := ih _ hrest (scanStep c cs2 line).line
        refine ⟨r :: front, t, ?_, ht, ?_⟩
        · rw [scanAll, he, heq]
          rfl
        · simp [List.countP_cons, hcnt, scanStep_not_eof c cs2 line r he]


end Front

namespace Interp

theorem unwrapNumber_not_number (r : IResult) (h : ∀ q : ℚ, r ≠ .ok (.NUMBER q)) :
    unwrapNumber r = .error ⟨0, "Not a number"⟩ := by
  cases r with
  | error e => rfl
  | ok v =>
    cases v with
    | NUMBER q => exact absurd rfl (h q)
    | BOOLEAN b => rfl
    | STRING s => rfl
    | Null => rfl

/-- C1: the pipeline is not total.  On the source text `1.2.3` the
`src/lexer.rs` scanner's `number_boundary` collects the buffer `"1.2.3"`
(digits and dots) and `buffer.parse::<f64>().unwrap()` panics, crashing
the process; collecting the token stream therefore reaches the panic. -/
theorem number_boundary_panics_on_two_dots :
    numberBoundary (lexInit ['1', '.', '2', '.', '3']) = none ∧
      lexCollect 10 (lexInit ['1', '.', '2', '.', '3']) = none := by
  decide

/-- C2: when a `RuntimeError` propagates out of `visit_block`, the saved
environment is not restored (the `?` operator returns before
`self.environment = tmp`), so the interpreter's current environment stays
the pushed child frame (index 1) rather than the pre-block frame
(index 0); on the success path it is restored.  Executing `{ b; }` with
`b` undefined exhibits the leak. -/
theorem block_error_leaves_child_environment :
    execStmt 5 initState (.Block [.Expr (.Variable "b")]) =
        some (.error ⟨0, "Variable \"b\" does not exist"⟩,
          ⟨[⟨[], none⟩, ⟨[], some 0⟩], 1, []⟩) ∧
      execStmt 5 initState (.Block [.VariableDef "x" (some (.Literal .Null))]) =
        some (.ok .Null, ⟨[⟨[], none⟩, ⟨[("x", .Null)], some 0⟩], 0, []⟩) := by
  decide

/-- C3 counterexample: a `RuntimeError` raised inside a while body does
not surface.  With `b` initially true, the body first assigns
`b = false` and then raises the error `boom`; executed alone the body
errors, but the while statement returns `Ok(Null)` because `visit_while`
discards the body's result (`let _ = self.execute(body)`). -/
theorem while_returns_null_despite_body_error :
    (execStmt 10 ⟨[⟨[("b", Value.BOOLEAN true)], none⟩], 0, []⟩
        (.While (.Variable "b")
          (.Block [.Expr (.Assign "b" (.Literal (.BOOLEAN false))), .Error 0 "boom"]))).map
        (fun p => p.1) = some (.ok .Null) ∧
      (execStmt 10 ⟨[⟨[("b", Value.BOOLEAN true)], none⟩], 0, []⟩
          (.Block [.Expr (.Assign "b" (.Literal (.BOOLEAN false))), .Error 0 "boom"])).map
          (fun p => p.1) = some (.error ⟨0, "boom"⟩) := by
  decide

/-- C3 (amended): `visit_while` repeatedly evaluates the condition and
runs the body while the condition's result is truthy (an `Err` condition
counts as truthy), discarding any `RuntimeError` the body raises; whenever
the while statement terminates it returns `Null` — no runtime error ever
surfaces from it. -/
theorem while_never_surfaces_runtime_errors :
    ∀ (fuel : Nat) (st : IState) (c : Expr) (b : Stmt),
      execStmt fuel st (.While c b) = none ∨
        ∃ st2, execStmt fuel st (.While c b) = some (.ok .Null, st2) := by
  intro fuel
  induction fuel with
  | zero => intro st c b; exact Or.inl rfl
  | succ f ih =>
    intro st c b
    rw [execStmt]
    rcases hev : evalExpr st c with ⟨rc, st1⟩
    dsimp only
    by_cases ht : isTruthy rc = true
    · rw [if_pos ht]
      cases hb : execStmt f st1 b with
      | none => exact Or.inl rfl
      | some p =>
        obtain ⟨res2, st2⟩ := p
        exact ih st2 c b
    · rw [if_neg ht]
      exact Or.inr ⟨st1, rfl⟩

/-- C4 counterexample: `"a" + "b"` does not concatenate; `visit_binary`
funnels both operands through `unwrap_number`, so two strings yield the
runtime error `Not a number` at line 0 (not
`Operands must be two numbers or two strings.`). -/
theorem plus_on_two_strings_is_not_a_number_error :
    evalExpr initState
        (.Binary (.Literal (.STRING "a")) .Plus (.Literal (.STRING "b"))) =
      (.error ⟨0, "Not a number"⟩, initState) := by
  decide

/-- C4 (amended): for binary `+`, if both operands evaluate to `Number`
the result is their numeric sum; if the left operand's result is anything
other than `Ok(Number)` — a string, boolean, nil, or an error — the
evaluation fails with `Not a number` at line 0 (and likewise for the
right operand, which is then not reached when the left fails). -/
theorem binary_plus_amended (st st1 st2 : IState) (l r : Expr) (a : ℚ) :
    ((∀ b : ℚ, evalExpr st l = (.ok (.NUMBER a), st1) →
        evalExpr st1 r = (.ok (.NUMBER b), st2) →
        evalExpr st (.Binary l .Plus r) = (.ok (.NUMBER (a + b)), st2)))
    ∧ (∀ rl, evalExpr st l = (rl, st1) → (∀ q : ℚ, rl ≠ .ok (.NUMBER q)) →
        evalExpr st (.Binary l .Plus r) = (.error ⟨0, "Not a number"⟩, st1))
    ∧ (∀ rr, evalExpr st l = (.ok (.NUMBER a), st1) →
        evalExpr st1 r = (rr, st2) → (∀ q : ℚ, rr ≠ .ok (.NUMBER q)) →
        evalExpr st (.Binary l .Plus r) = (.error ⟨0, "Not a number"⟩, st2)) := by
  refine ⟨?_, ?_, ?_⟩
  · intro b h1 h2
    simp only [evalExpr, h1, h2, unwrapNumber]
  · intro rl h1 hq
    simp only [evalExpr, h1, unwrapNumber_not_number rl hq]
  · intro rr h1 h2 hq
    simp only [evalExpr, h1, h2, unwrapNumber, unwrapNumber_not_number rr hq]

/-- Witness for C4: `1 + 2` evaluates to `3`. -/
theorem binary_plus_amended_witness :
    evalExpr initState
        (.Binary (.Literal (.NUMBER 1)) .Plus (.Literal (.NUMBER 2))) =
      (.ok (.NUMBER ((1 : ℚ) + 2)), initState) :=
  (binary_plus_amended initState initState initState
    (.Literal (.NUMBER 1)) (.Literal (.NUMBER 2)) 1).1 2 rfl rfl

/-- C5 counterexample: a truthy `Number` condition does not run the
then-branch.  `if (1) <error>` returns `Ok(Null)` without touching the
branch, because `visit_if` only dispatches on `Ok(BOOLEAN _)` results. -/
theorem if_ignores_truthy_number_condition :
    execStmt 5 initState (.If (.Literal (.NUMBER 1)) (.Error 0 "boom") none) =
      some (.ok .Null, initState) := by
  decide

/-- C5 (amended): `visit_if` runs the then-branch exactly when the
condition evaluates to `Ok(BOOLEAN true)` and the else-branch (when
present) exactly when it evaluates to `Ok(BOOLEAN false)`; any other
condition result — numbers, strings, nil, or a `RuntimeError` — runs
neither branch and yields `Null` (truthiness via `is_truthy` is not
consulted here). -/
theorem if_dispatch_amended (fuel : Nat) (st st1 : IState) (c : Expr)
    (t : Stmt) (e : Option Stmt) :
    (evalExpr st c = (.ok (.BOOLEAN true), st1) →
      execStmt (fuel + 1) st (.If c t e) = execStmt fuel st1 t)
    ∧ (∀ eb, e = some eb → evalExpr st c = (.ok (.BOOLEAN false), st1) →
        execStmt (fuel + 1) st (.If c t e) = execStmt fuel st1 eb)
    ∧ (e = none → evalExpr st c = (.ok (.BOOLEAN false), st1) →
        execStmt (fuel + 1) st (.If c t e) = some (.ok .Null, st1))
    ∧ (∀ v, evalExpr st c = (.ok v, st1) → v ≠ .BOOLEAN true →
        v ≠ .BOOLEAN false →
        execStmt (fuel + 1) st (.If c t e) = some (.ok .Null, st1))
    ∧ (∀ err, evalExpr st c = (.error err, st1) →
        execStmt (fuel + 1) st (.If c t e) = some (.ok .Null, st1)) := by
  refine ⟨?_, ?_, ?_, ?_, ?_⟩
  · intro h
    simp only [execStmt, h]
  · intro eb he h
    subst he
    simp only [execStmt, h]
  · intro he h
    subst he
    simp only [execStmt, h]
  · intro v h hv1 hv2
    simp only [execStmt, h]
    cases v with
    | BOOLEAN bb =>
      cases bb
      · exact absurd rfl hv2
      · exact absurd rfl hv1
    | NUMBER q => rfl
    | STRING s => rfl
    | Null => rfl
  · intro err h
    simp only [execStmt, h]

/-- Witness for C5: `if (true) print() else ∅` reduces to executing the
then-branch. -/
theorem if_dispatch_amended_witness :
    execStmt 2 initState (.If (.Literal (.BOOLEAN true)) (.Print none) none) =
      execStmt 1 initState (.Print none) :=
  (if_dispatch_amended 1 initState initState (.Literal (.BOOLEAN true))
    (.Print none) none).1 rfl

/-- C6 counterexample: after `var a;` the name `a` is not bound at all —
a lookup of `a` in the same scope fails with the runtime error
`Variable "a" does not exist` rather than yielding `Nil`. -/
theorem var_declaration_without_initializer_defines_nothing :
    execList 5 initState [.VariableDef "a" none, .Expr (.Variable "a")] =
      some (.error ⟨0, "Variable \"a\" does not exist"⟩, initState) := by
  decide

/-- C6 (amended): `visit_variable_def` with no initializer returns `Null`
without defining the declared name: the interpreter state — frames
included — is unchanged. -/
theorem var_no_initializer_amended (fuel : Nat) (st : IState) (ident : String) :
    execStmt (fuel + 1) st (.VariableDef ident none) = some (.ok .Null, st) :=
  rfl

/-- C10: the source `print()` lexes to `PRINT ( )`, the statement parser
accepts it as `Stmt::Print(None)` regardless of the expression parser
(that path never invokes it), and evaluating `Print(None)` writes nothing
to the print sink and returns `Null` with the state unchanged. -/
theorem print_without_argument_confirmed :
    lexCollect 20 (lexInit ['p', 'r', 'i', 'n', 't', '(', ')']) =
        some [⟨0, .PRINT⟩, ⟨0, .LeftParen⟩, ⟨0, .RightParen⟩]
    ∧ (∀ pexpr : Parser → Option Expr × Parser,
        pStatement pexpr ⟨[⟨0, .PRINT⟩, ⟨0, .LeftParen⟩, ⟨0, .RightParen⟩], 0⟩ =
          (some (.Print none), ⟨[⟨0, .PRINT⟩, ⟨0, .LeftParen⟩, ⟨0, .RightParen⟩], 3⟩))
    ∧ (∀ (fuel : Nat) (st : IState),
        execStmt (fuel + 1) st (.Print none) = some (.ok .Null, st)) :=
  ⟨by decide, fun pexpr => rfl, fun fuel st => rfl⟩

/-- C8 counterexample: the `src/lexer.rs` scanner never emits an `Eof`
token — on the source `(` the collected stream is just `[LeftParen]`
(zero `Eof` tokens, not exactly one), and the iterator then terminates. -/
theorem lexer_emits_no_eof_counterexample :
    lexCollect 10 (lexInit ['(']) = some [⟨0, .LeftParen⟩] ∧
      (lexCollect 10 (lexInit ['('])).map
          (fun l => l.countP (fun t => t.lexeme = .EOF)) = some 0 := by
  decide

end Interp

namespace Front

/-- C7 counterexample: the parser (`src/parser.rs`) does not accept `or`
at any precedence level — on the tokens of `a or b;` it reports
`UnexpectedToken` at the `or` token expecting `;`, rather than producing
a `Logical` node (the `Expression` type has no such variant). -/
theorem or_token_rejected_counterexample :
    parserNext 30 [⟨.Identifier "a", 0⟩, ⟨.Or, 0⟩, ⟨.Identifier "b", 0⟩,
        ⟨.Semicolon, 0⟩, ⟨.Eof, 0⟩] =
      some (some (.error (.UnexpectedToken ⟨.Or, 0⟩ "Expected ';' after value."))) :=
  rfl

/-- C7 (amended): in `src/parser.rs`, `assignment`'s non-assignment
alternative derives directly through `equality` — there are no
`logic_or`/`logic_and` productions and no `Logical` nodes.  A token
sequence with `and` in expression position is rejected with
`UnexpectedToken` where the statement terminator is expected, while the
genuine binary operators (here `+`) produce left-folded `Binary` nodes. -/
theorem assignment_derives_through_equality_amended :
    (∀ a b : String,
      parserNext 30 [⟨.Identifier a, 0⟩, ⟨.And, 0⟩, ⟨.Identifier b, 0⟩,
          ⟨.Semicolon, 0⟩, ⟨.Eof, 0⟩] =
        some (some (.error (.UnexpectedToken ⟨.And, 0⟩ "Expected ';' after value."))))
    ∧ parserNext 30 [⟨.Number 1, 0⟩, ⟨.Plus, 0⟩, ⟨.Number 2, 0⟩,
        ⟨.Semicolon, 0⟩, ⟨.Eof, 0⟩] =
      some (some (.ok (.Expression (.Binary (.Literal (.Number 1)) ⟨.Plus, 0⟩
        (.Literal (.Number 2))), [⟨.Eof, 0⟩]))) :=
  ⟨fun a b => rfl, rfl⟩

/-- C8 (amended): the `src/scanner.rs` scanner emits exactly one `Eof`
result, and it is the last item of the stream (for any input and any fuel
above the input length); the `src/lexer.rs` scanner, by contrast, never
emits an `Eof` token — collecting it on the source `+` yields just
`[Plus]` before the iterator terminates. -/
theorem scanner_eof_amended :
    (∀ (fuel : Nat) (cs : List Char), cs.length < fuel → ∀ line : Nat,
      ∃ front t, scanAll fuel cs line = front ++ [t] ∧ isEofRes t = true ∧
        front.countP (fun r => isEofRes r) = 0)
    ∧ Interp.lexCollect 10 (Interp.lexInit ['+']) = some [⟨0, .Plus⟩] :=
  ⟨fun fuel cs h line => scanAll_shape fuel cs h line, by decide⟩

/-- Witness for C8: scanning `(` with fuel 2 gives a stream ending in the
single `Eof`. -/
theorem scanner_eof_amended_witness :
    (['('].length < 2) ∧
      ∃ front t, scanAll 2 ['('] 0 = front ++ [t] ∧ isEofRes t = true ∧
        front.countP (fun r => isEofRes r) = 0 :=
  ⟨by decide, scanner_eof_amended.1 2 ['('] (by decide) 0⟩

/-- C9 counterexample: after the comment in `( //c ⏎ )` the `)` token on
the next line still carries line 0 — the newline that ends the comment is
consumed by the comment's `take_while` and the line counter is never
incremented for it (the claim would put `)` and `Eof` on line 1). -/
theorem comment_swallows_newline_counterexample :
    scanAll 10 ['(', '/', '/', 'c', '\n', ')'] 0 =
      [.ok ⟨.LeftParen, 0⟩, .ok ⟨.RightParen, 0⟩, .ok ⟨.Eof, 0⟩] := by
  decide

/-- C9 (amended): a `//` comment consumes the remaining input up to and
including the next newline character (`take_while(|c| *c != '\n')` on the
character iterator also eats the failing newline), emits nothing, and
leaves the line counter unchanged — so a token after the comment carries
the same line number as tokens before it. -/
theorem comment_consumes_newline_amended (cs : List Char) (line : Nat)
    (h : cs.head? = some '/') :
    scanStep '/' cs line =
      ⟨none, (cs.dropWhile (fun x => x ≠ '\n')).drop 1, line⟩ := by
  unfold scanStep
  simp [h]

/-- Witness for C9: the comment `//x⏎y` consumes through the newline,
leaving only `y`, with the line counter still 0. -/
theorem comment_consumes_newline_amended_witness :
    (['/', 'x', '\n', 'y'].head? = some '/') ∧
      scanStep '/' ['/', 'x', '\n', 'y'] 0 = ⟨none, ['y'], 0⟩ :=
  ⟨rfl, comment_consumes_newline_amended ['/', 'x', '\n', 'y'] 0 rfl⟩

end Front
